import Mathlib

/-!
Verification of the prompt-construction and dataset-preparation core of the
`stanford_alpaca` fine-tuning repository (`train.py`, `train_val_split.py`).

Python records (`dict[str, str]`) are embedded as association lists over
`String`; Python's `str.format_map` over the two fixed prompt templates is
embedded as substitution over a literal/placeholder part list; a raised
`KeyError` becomes `Except.error` carrying the missing key.  The external
subword tokenizer is abstracted as a function `String → List Nat` together
with its distinguished ids.
-/

set_option autoImplicit false

universe u v w

variable {α : Type u} {β : Type v} {ε : Type w}

/-- A Python `dict[str, str]` as an insertion-ordered association list
(a loaded JSON record never has duplicate keys). -/
abbrev Dict := List (String × String)

deriving instance DecidableEq for Except

/-- First-match lookup, the embedding of Python `d[k]` / `d.get(k)`. -/
def dictLookup (ex : Dict) (k : String) : Option String :=
  match ex with
  | [] => none
  | (k', v) :: t => if k' = k then some v else dictLookup t k

/-- Python `d.get(k, default)`. -/
def dictGetD (ex : Dict) (k d : String) : String :=
  (dictLookup ex k).getD d

/-- Python `d[k] = v`: rebind the first occurrence of the key in place
(keeping its position, as Python dicts do), or append the pair if absent. -/
def dictSet (ex : Dict) (k v : String) : Dict :=
  match ex with
  | [] => [(k, v)]
  | (k', v') :: t => if k' = k then (k, v) :: t else (k', v') :: dictSet t k v

/-! ### Prompt templates (`train.py` lines 27–36)

A Python format string is embedded as a list of parts: literal pieces and
named placeholders.  The two template constants below spell out, piece by
piece, the `PROMPT_INPUT` and `PROMPT_NO_INPUT` strings of the source. -/

/-- One piece of a Python format string: a literal or a named placeholder. -/
inductive TemplatePart where
  | lit (s : String)
  | var (k : String)
deriving DecidableEq

def PROMPT_INPUT : List TemplatePart :=
  [.lit "Below is an instruction that describes a task, paired with an input that provides further context. Write a response that appropriately completes the request.\n\n### Instruction:\n",
   .var "instruction",
   .lit "\n\n### Input:\n",
   .var "input",
   .lit "\n\n### Response:"]

def PROMPT_NO_INPUT : List TemplatePart :=
  [.lit "Below is an instruction that describes a task. Write a response that appropriately completes the request.\n\n### Instruction:\n",
   .var "instruction",
   .lit "\n\n### Response:"]

/-- Python `template.format_map(example)`: substitute each placeholder with
the example's value for that key; a missing key raises `KeyError k`,
embedded as `Except.error k`.  The leftmost missing placeholder wins, as in
Python's left-to-right processing. -/
def format_map (tmpl : List TemplatePart) (ex : Dict) : Except String String :=
  match tmpl with
  | [] => .ok ""
  | .lit s :: rest => (format_map rest ex).map (fun r => s ++ r)
  | .var k :: rest =>
    match dictLookup ex k with
    | some v => (format_map rest ex).map (fun r => v ++ r)
    | none => .error k

/-- `generate_prompt` (`train.py` lines 70–76): select the no-input template
iff `example.get("input", "") == ""`, format it over the example, and store
the result under the `prompt` key of the same record. -/
def generate_prompt (ex : Dict) : Except String Dict := do
  let prompt ←
    if dictGetD ex "input" "" = "" then format_map PROMPT_NO_INPUT ex
    else format_map PROMPT_INPUT ex
  pure (dictSet ex "prompt" prompt)

/-! ### Spec-side rendering functions

These restate the spec's "two fixed templates" as plain string functions of
the `instruction` and `input` values, to be compared with what
`generate_prompt` computes through `format_map`. -/

def renderNoInput (instr : String) : String :=
  "Below is an instruction that describes a task. Write a response that appropriately completes the request.\n\n### Instruction:\n"
  ++ instr ++ "\n\n### Response:"

def renderInput (instr inp : String) : String :=
  "Below is an instruction that describes a task, paired with an input that provides further context. Write a response that appropriately completes the request.\n\n### Instruction:\n"
  ++ instr ++ "\n\n### Input:\n" ++ inp ++ "\n\n### Response:"

/-- The prompt the spec's two-template rule assigns to a record, given its
`instruction` value. -/
def specPrompt (ex : Dict) (instr : String) : String :=
  if dictGetD ex "input" "" = "" then renderNoInput instr
  else renderInput instr (dictGetD ex "input" "")

/-! ### Tokenizer adapter (`train.py` lines 79–88)

The external pretrained subword tokenizer is abstracted by its encoding
function and its distinguished ids.  `encode` stands for calling the
tokenizer on one string and reading off `input_ids`; whatever truncation
the tokenizer is configured with is part of `encode`. -/

structure Tokenizer where
  encode : String → List Nat
  eos_token_id : Nat
  model_max_length : Nat

/-- `batch_tokenize` (`train.py` lines 79–88): tokenize the batch of
prompts, then append one `eos_token_id` to each id sequence. -/
def batch_tokenize (tokenizer : Tokenizer) (prompts : List String) :
    List (List Nat) :=
  (prompts.map tokenizer.encode).map
    (fun input_ids => input_ids ++ [tokenizer.eos_token_id])

/-! ### Tokenizer pad-token setup (`train.py` lines 99–107) -/

/-- The loaded pretrained tokenizer's state, as far as the pad-token setup
touches it: its vocabulary and its special tokens. -/
structure PretrainedTokenizer where
  vocab : List String
  pad_token : Option String
  unk_token : String
deriving DecidableEq

/-- The pad-token fixup in `train` (`train.py` lines 102–107): if the
tokenizer has no pad token, rebind its pad token to the existing unk token;
the vocabulary is not touched. -/
def set_pad_token (t : PretrainedTokenizer) : PretrainedTokenizer :=
  if t.pad_token = none then { t with pad_token := some t.unk_token } else t

/-! ### Dataset pipeline (`train.py` lines 134–138)

`load_dataset(...).map(generate_prompt, remove_columns=[...]).map(partial
(batch_tokenize, tokenizer), batched=True, remove_columns="prompt")` over a
list of records.  `datasets.Dataset.map` applies the function to each
record in order and removes the listed columns from the function's output;
the batched variant cuts the dataset into consecutive batches, feeds each
batch's `prompt` column to the function, and zips the returned `input_ids`
column back with the remaining columns, preserving order. -/

/-- `remove_columns`: drop the listed keys from a record. -/
def removeColumns (cols : List String) (ex : Dict) : Dict :=
  ex.filter (fun kv => !(cols.contains kv.1))

/-- Sequential fallible map: `datasets.Dataset.map` applies its function to
each record in order, and the first raised exception propagates, aborting
the whole build. -/
def mapExcept (f : α → Except ε β) : List α → Except ε (List β)
  | [] => .ok []
  | x :: t =>
    match f x with
    | .error e => .error e
    | .ok y =>
      match mapExcept f t with
      | .error e => .error e
      | .ok ys => .ok (y :: ys)

/-- Cut a list into consecutive chunks of size `b` (the batches of
`datasets.Dataset.map(batched=True)`), by fuel recursion. -/
def chunksAux (b : Nat) : Nat → List α → List (List α)
  | 0, _ => []
  | _ + 1, [] => []
  | fuel + 1, xs => xs.take b :: chunksAux b fuel (xs.drop b)

def chunks (b : Nat) (xs : List α) : List (List α) :=
  chunksAux b xs.length xs

/-- The first `.map` stage: `generate_prompt` followed by
`remove_columns=["instruction", "input", "output"]`. -/
def promptStage (ex : Dict) : Except String Dict :=
  (generate_prompt ex).map (removeColumns ["instruction", "input", "output"])

/-- A record of the tokenized dataset: the `input_ids` column produced by
`batch_tokenize` zipped with the record's remaining columns. -/
structure TokRecord where
  input_ids : List Nat
  rest : Dict
deriving DecidableEq

/-- The second `.map` stage on one batch: feed the batch's `prompt` column
to `batch_tokenize`, then `remove_columns="prompt"`. -/
def tokenizeStage (tokenizer : Tokenizer) (batch : List Dict) :
    List TokRecord :=
  List.zipWith (fun ex ids => ⟨ids, removeColumns ["prompt"] ex⟩) batch
    (batch_tokenize tokenizer (batch.map (fun ex => dictGetD ex "prompt" "")))

/-- The dataset build pipeline of `train` (`train.py` lines 134–138), with
batch size `b` for the batched tokenization stage. -/
def buildDataset (tokenizer : Tokenizer) (b : Nat) (ds : List Dict) :
    Except String (List TokRecord) :=
  (mapExcept promptStage ds).map
    (fun prompted =>
      ((chunks b prompted).map (tokenizeStage tokenizer)).flatten)

/-! ### Split tool (`train_val_split.py`)

`train_val_split.py` delegates the partition to the external `datasets`
library's `train_test_split` (line 13), whose code is not part of this
repository.  Its behaviour is therefore modelled from the spec: a seeded
pseudo-random shuffle followed by cutting off `val_size` examples, failing
on an invalid `val_size`.  The concrete pseudo-random generator below is
one representative deterministic generator; the claims under proof depend
only on it being a seed-determined permutation. -/

/-- Modelled from the spec: one step of a seeded pseudo-random number
generator (a 64-bit linear congruential generator), standing in for the
`datasets` library's seeded generator, which is not in this repository's
sources. -/
def lcg (s : Nat) : Nat :=
  (6364136223846793005 * s + 1442695040888963407) % (2 ^ 64)

/-- Modelled from the spec: a seeded Fisher–Yates shuffle, by fuel
recursion; at each step the generator state picks the next element. -/
def shuffleFuel : Nat → Nat → List α → List α
  | 0, _, xs => xs
  | _ + 1, _, [] => []
  | fuel + 1, s, x :: t =>
    let i : Fin (x :: t).length := ⟨s % (x :: t).length, Nat.mod_lt _ (by simp)⟩
    (x :: t).get i :: shuffleFuel fuel (lcg s) ((x :: t).eraseIdx i)

/-- Modelled from the spec: the seed-determined shuffle of the whole list. -/
def shuffle (seed : Nat) (xs : List α) : List α :=
  shuffleFuel xs.length seed xs

/-- The result of the split: the persisted `train` and `validation`
subsets (`train_val_split.py` lines 13–15 name the library's `test` subset
`validation`). -/
structure SplitResult (α : Type _) where
  train : List α
  validation : List α
deriving DecidableEq

/-- Modelled from the spec: the external `datasets` library's
`train_test_split` with an absolute `test_size`, as invoked on
`train_val_split.py` line 13 — signal `ConfigError` when `val_size` is
negative or at least the example count, otherwise shuffle with the seeded
generator and cut off the first `val_size` examples as the validation
subset. -/
def train_test_split (xs : List α) (val_size : Int) (seed : Nat) :
    Except String (SplitResult α) :=
  if val_size < 0 ∨ (xs.length : Int) ≤ val_size then .error "ConfigError"
  else
    .ok { train := (shuffle seed xs).drop val_size.toNat
          validation := (shuffle seed xs).take val_size.toNat }

/-! ### Per-record forms of the two map stages -/

/-- What the second `.map` stage makes of one record. -/
def tokRecordOf (tokenizer : Tokenizer) (ex : Dict) : TokRecord :=
  ⟨tokenizer.encode (dictGetD ex "prompt" "") ++ [tokenizer.eos_token_id],
   removeColumns ["prompt"] ex⟩

/-- What the first `.map` stage makes of a record that carries an
`instruction` field. -/
def promptedOf (ex : Dict) : Dict :=
  removeColumns ["instruction", "input", "output"]
    (dictSet ex "prompt" (specPrompt ex ((dictLookup ex "instruction").getD "")))

/-! ### Sample data for concrete instantiations -/

/-- A small concrete tokenizer: one id per character, eos id 2. -/
def sampleTokenizer : Tokenizer :=
  { encode := fun s => List.replicate s.length 1
    eos_token_id := 2
    model_max_length := 4 }

/-- A tokenizer that truncates every prompt to its maximum length. -/
def truncatingTokenizer : Tokenizer :=
  { encode := fun _ => [5, 7]
    eos_token_id := 9
    model_max_length := 2 }

/-- The spec's end-to-end example record (empty `input`). -/
def sampleNoInputExample : Dict :=
  [("instruction", "Summarize."), ("input", ""), ("output", "A summary.")]

/-- A record with a non-empty `input`. -/
def sampleInputExample : Dict :=
  [("instruction", "Translate."), ("input", "Bonjour"), ("output", "Hello")]

/-- A record missing the required `instruction` field. -/
def noInstructionExample : Dict := [("input", "ctx")]

/-- A record that already carries a `prompt` field. -/
def prepromptedExample : Dict := [("instruction", "a"), ("prompt", "old")]

/-- A loaded pretrained tokenizer without a pad token. -/
def padlessTokenizer : PretrainedTokenizer :=
  { vocab := ["a", "b", "u"], pad_token := none, unk_token := "u" }

/-- The partition the modelled seeded shuffle produces on `[10, 20, 30]`
with `val_size = 1` and `seed = 42`. -/
def sampleSplit : SplitResult Nat := { train := [30, 20], validation := [10] }

/-! ### Theorems -/

theorem dictLookup_dictSet_self (ex : Dict) (k v : String) :
    dictLookup (dictSet ex k v) k = some v := by
  induction ex with
  | nil => simp [dictSet, dictLookup]
  | cons kv t ih =>
    by_cases hk : kv.1 = k
    · simp [dictSet, hk, dictLookup]
    · simpa [dictSet, hk, dictLookup] using ih

theorem dictLookup_dictSet_ne (ex : Dict) (k v k' : String) (hne : k' ≠ k) :
    dictLookup (dictSet ex k v) k' = dictLookup ex k' := by
  induction ex with
  | nil => simp [dictSet, dictLookup, Ne.symm hne]
  | cons kv t ih =>
    by_cases hk : kv.1 = k
    · simp [dictSet, hk, dictLookup, Ne.symm hne]
    · by_cases hk' : kv.1 = k'
      · simp [dictSet, hk, dictLookup, hk', hne]
      · simpa [dictSet, hk, dictLookup, hk'] using ih

theorem dictGetD_ne_default (ex : Dict) (k d : String)
    (h : dictGetD ex k d ≠ d) : dictLookup ex k = some (dictGetD ex k d) := by
  unfold dictGetD at *
  cases hl : dictLookup ex k with
  | none => simp [hl] at h
  | some v => simp [hl]

theorem format_map_no_input (ex : Dict) (instr : String)
    (h : dictLookup ex "instruction" = some instr) :
    format_map PROMPT_NO_INPUT ex = .ok (renderNoInput instr) := by
  simp [PROMPT_NO_INPUT, format_map, h, renderNoInput, Except.map,
    String.append_empty, String.append_assoc]

theorem format_map_input (ex : Dict) (instr inp : String)
    (h : dictLookup ex "instruction" = some instr)
    (h' : dictLookup ex "input" = some inp) :
    format_map PROMPT_INPUT ex = .ok (renderInput instr inp) := by
  simp [PROMPT_INPUT, format_map, h, h', renderInput, Except.map,
    String.append_empty, String.append_assoc]

/-- Success shape of `generate_prompt` when `instruction` is present. -/
theorem generate_prompt_ok (ex : Dict) (instr : String)
    (h : dictLookup ex "instruction" = some instr) :
    generate_prompt ex = .ok (dictSet ex "prompt" (specPrompt ex instr)) := by
  unfold generate_prompt specPrompt
  by_cases hi : dictGetD ex "input" "" = ""
  · simp [hi, format_map_no_input ex instr h]
  · have hl : dictLookup ex "input" = some (dictGetD ex "input" "") :=
      dictGetD_ne_default ex "input" "" hi
    simp [hi, format_map_input ex instr (dictGetD ex "input" "") h hl]

/-- When `instruction` is absent, `generate_prompt` raises
`KeyError "instruction"` regardless of which template was selected. -/
theorem generate_prompt_err (ex : Dict)
    (h : dictLookup ex "instruction" = none) :
    generate_prompt ex = .error "instruction" := by
  unfold generate_prompt
  by_cases hi : dictGetD ex "input" "" = ""
  · simp [hi, PROMPT_NO_INPUT, format_map, h, Except.map]
  · simp [hi, PROMPT_INPUT, format_map, h, Except.map]

/-! ### Shuffle permutation lemmas -/

theorem get_cons_eraseIdx_perm :
    ∀ (xs : List α) (i : Fin xs.length),
      (xs.get i :: xs.eraseIdx i).Perm xs := by
  intro xs
  induction xs with
  | nil => exact fun i => absurd i.2 (by simp)
  | cons x t ih =>
    rintro ⟨i, hi⟩
    cases i with
    | zero => simp [List.eraseIdx]
    | succ j =>
      have hj : j < t.length := by simpa using hi
      have step := (ih ⟨j, hj⟩).cons x
      have sw :
          (t.get ⟨j, hj⟩ :: x :: t.eraseIdx j).Perm
            (x :: t.get ⟨j, hj⟩ :: t.eraseIdx j) := List.Perm.swap _ _ _
      simpa [List.eraseIdx] using sw.trans step

theorem shuffleFuel_perm :
    ∀ (fuel s : Nat) (xs : List α), (shuffleFuel fuel s xs).Perm xs := by
  intro fuel
  induction fuel with
  | zero => intro s xs; simp [shuffleFuel]
  | succ n ih =>
    intro s xs
    cases xs with
    | nil => simp [shuffleFuel]
    | cons x t =>
      have rec := (ih (lcg s) ((x :: t).eraseIdx (s % (x :: t).length))).cons
        ((x :: t).get ⟨s % (x :: t).length, Nat.mod_lt _ (by simp)⟩)
      have step := rec.trans
        (get_cons_eraseIdx_perm (x :: t)
          ⟨s % (x :: t).length, Nat.mod_lt _ (by simp)⟩)
      simpa [shuffleFuel] using step

theorem shuffle_perm (seed : Nat) (xs : List α) : (shuffle seed xs).Perm xs :=
  shuffleFuel_perm xs.length seed xs

theorem shuffle_length (seed : Nat) (xs : List α) :
    (shuffle seed xs).length = xs.length :=
  (shuffle_perm seed xs).length_eq

theorem dictLookup_removeColumns_mem (cols : List String) (ex : Dict)
    (k : String) (h : k ∈ cols) :
    dictLookup (removeColumns cols ex) k = none := by
  induction ex with
  | nil => simp [removeColumns, dictLookup]
  | cons kv t ih =>
    by_cases hc : kv.1 ∈ cols
    · simpa [removeColumns, List.filter_cons, hc] using ih
    · have hne : kv.1 ≠ k := fun he => hc (he ▸ h)
      simpa [removeColumns, List.filter_cons, hc, dictLookup, hne] using ih

theorem dictLookup_removeColumns_not_mem (cols : List String) (ex : Dict)
    (k : String) (h : k ∉ cols) :
    dictLookup (removeColumns cols ex) k = dictLookup ex k := by
  induction ex with
  | nil => simp [removeColumns, dictLookup]
  | cons kv t ih =>
    by_cases hc : kv.1 ∈ cols
    · have hne : kv.1 ≠ k := fun he => h (he ▸ hc)
      simpa [removeColumns, List.filter_cons, hc, dictLookup, hne] using ih
    · by_cases hk : kv.1 = k
      · simp [removeColumns, List.filter_cons, hc, dictLookup, hk, h]
      · simpa [removeColumns, List.filter_cons, hc, dictLookup, hk] using ih

theorem tokenizeStage_eq_map (tokenizer : Tokenizer) (batch : List Dict) :
    tokenizeStage tokenizer batch = batch.map (tokRecordOf tokenizer) := by
  unfold tokenizeStage batch_tokenize tokRecordOf
  rw [List.map_map, List.zipWith_map_right, List.zipWith_map_right,
    List.zipWith_same]
  simp [Function.comp]

theorem chunksAux_flatten_map (g : α → β) (b : Nat) (hb : 0 < b) :
    ∀ (fuel : Nat) (xs : List α), xs.length ≤ fuel →
      ((chunksAux b fuel xs).map (List.map g)).flatten = xs.map g := by
  intro fuel
  induction fuel with
  | zero =>
    intro xs hx
    have : xs = [] := List.eq_nil_of_length_eq_zero (Nat.le_zero.mp hx)
    simp [this, chunksAux]
  | succ n ih =>
    intro xs hx
    cases xs with
    | nil => simp [chunksAux]
    | cons x t =>
      have hlen : ((x :: t).drop b).length ≤ n := by
        simp only [List.length_drop]
        omega
      calc ((chunksAux b (n + 1) (x :: t)).map (List.map g)).flatten
          = ((x :: t).take b).map g ++
              ((chunksAux b n ((x :: t).drop b)).map (List.map g)).flatten := by
            simp [chunksAux]
        _ = ((x :: t).take b).map g ++ ((x :: t).drop b).map g := by
            rw [ih _ hlen]
        _ = (x :: t).map g := by
            rw [← List.map_append, List.take_append_drop]

theorem chunks_flatten_map (g : α → β) (b : Nat) (hb : 0 < b) (xs : List α) :
    ((chunks b xs).map (List.map g)).flatten = xs.map g :=
  chunksAux_flatten_map g b hb xs.length xs le_rfl

theorem mapExcept_ok_of_forall (f : α → Except ε β) (g : α → β)
    (xs : List α) (h : ∀ x ∈ xs, f x = .ok (g x)) :
    mapExcept f xs = .ok (xs.map g) := by
  induction xs with
  | nil => simp [mapExcept]
  | cons x t ih =>
    have hx := h x (by simp)
    have ht := ih (fun y hy => h y (by simp [hy]))
    simp [mapExcept, hx, ht]

theorem mapExcept_error (f : α → Except ε β) (g : α → β) (e0 : ε)
    (xs : List α) (hall : ∀ x ∈ xs, f x = .ok (g x) ∨ f x = .error e0)
    (x0 : α) (hx0 : x0 ∈ xs) (he : f x0 = .error e0) :
    mapExcept f xs = .error e0 := by
  induction xs with
  | nil => simp at hx0
  | cons x t ih =>
    rcases hall x (by simp) with hok | herr
    · rcases List.mem_cons.mp hx0 with rfl | hmem
      · rw [hok] at he
        exact absurd he (by simp)
      · have ht := ih (fun y hy => hall y (by simp [hy])) hmem
        simp [mapExcept, hok, ht]
    · simp [mapExcept, herr]

theorem promptStage_ok (ex : Dict) (instr : String)
    (h : dictLookup ex "instruction" = some instr) :
    promptStage ex = .ok (promptedOf ex) := by
  unfold promptStage promptedOf
  rw [generate_prompt_ok ex instr h, h]
  rfl

theorem promptStage_err (ex : Dict)
    (h : dictLookup ex "instruction" = none) :
    promptStage ex = .error "instruction" := by
  unfold promptStage
  rw [generate_prompt_err ex h]
  rfl

theorem promptedOf_prompt (ex : Dict) (instr : String)
    (h : dictLookup ex "instruction" = some instr) :
    dictLookup (promptedOf ex) "prompt" = some (specPrompt ex instr) := by
  unfold promptedOf
  rw [dictLookup_removeColumns_not_mem _ _ _ (by simp),
    dictLookup_dictSet_self, h]
  rfl

theorem promptedOf_dropped (ex : Dict) (k : String)
    (hk : k ∈ ["instruction", "input", "output"]) :
    dictLookup (promptedOf ex) k = none :=
  dictLookup_removeColumns_mem _ _ _ hk

theorem buildDataset_ok (tokenizer : Tokenizer) (b : Nat) (ds : List Dict)
    (hb : 0 < b) (h : ∀ ex ∈ ds, dictLookup ex "instruction" ≠ none) :
    buildDataset tokenizer b ds =
      .ok (ds.map (fun ex => tokRecordOf tokenizer (promptedOf ex))) := by
  have hall : ∀ ex ∈ ds, promptStage ex = .ok (promptedOf ex) := by
    intro ex hex
    cases hl : dictLookup ex "instruction" with
    | none => exact absurd hl (h ex hex)
    | some instr => exact promptStage_ok ex instr hl
  unfold buildDataset
  rw [mapExcept_ok_of_forall _ promptedOf ds hall]
  have hst : (chunks b (ds.map promptedOf)).map (tokenizeStage tokenizer) =
      (chunks b (ds.map promptedOf)).map (List.map (tokRecordOf tokenizer)) := by
    simp [tokenizeStage_eq_map]
  simp only [Except.map, hst,
    chunks_flatten_map (tokRecordOf tokenizer) b hb (ds.map promptedOf),
    List.map_map]
  rfl

/-! ### The claims -/

/-- C1: every `input_ids` sequence produced by `batch_tokenize` is the
tokenizer's encoding of the corresponding prompt with exactly one
end-of-sequence id appended unconditionally, so its last element is the
end-of-sequence id for every prompt regardless of length. -/
theorem C1_batch_tokenize_appends_eos (tokenizer : Tokenizer)
    (prompts : List String) :
    batch_tokenize tokenizer prompts =
      prompts.map (fun p => tokenizer.encode p ++ [tokenizer.eos_token_id]) ∧
    ∀ ids ∈ batch_tokenize tokenizer prompts,
      ids.getLast? = some tokenizer.eos_token_id := by
  constructor
  · unfold batch_tokenize
    rw [List.map_map]
    rfl
  · intro ids hids
    unfold batch_tokenize at hids
    rcases List.mem_map.mp hids with ⟨l, _, rfl⟩
    simp

/-- C1, instantiated: the adapter on a concrete prompt and tokenizer. -/
theorem C1_witness :
    batch_tokenize sampleTokenizer ["ab"] = [[1, 1, 2]] ∧
    ∀ ids ∈ batch_tokenize sampleTokenizer ["ab"],
      ids.getLast? = some sampleTokenizer.eos_token_id :=
  ⟨by decide, (C1_batch_tokenize_appends_eos sampleTokenizer ["ab"]).2⟩

/-- C2: two runs of the split with the same dataset, `val_size` and seed
return the same partition — the same subsets in the same order. -/
theorem C2_split_reproducible {α : Type} (D : List α) (val_size : Int)
    (seed : Nat) (r₁ r₂ : SplitResult α)
    (h₁ : train_test_split D val_size seed = .ok r₁)
    (h₂ : train_test_split D val_size seed = .ok r₂) :
    r₁.train = r₂.train ∧ r₁.validation = r₂.validation := by
  injection h₁.symm.trans h₂ with h
  subst h
  exact ⟨rfl, rfl⟩

/-- C2, instantiated at a concrete dataset, size and seed. -/
theorem C2_witness :
    train_test_split [10, 20, 30] 1 42 = .ok sampleSplit ∧
    sampleSplit.train = sampleSplit.train ∧
    sampleSplit.validation = sampleSplit.validation :=
  ⟨by decide,
   C2_split_reproducible [10, 20, 30] 1 42 sampleSplit sampleSplit
     (by decide) (by decide)⟩

/-- C3: for a record with an `instruction` field, `generate_prompt`
succeeds and the stored prompt is fully determined by the `instruction`
and `input` values through exactly two fixed templates — the input-bearing
one iff `input` is a non-empty string (absence counts as empty). -/
theorem C3_prompt_two_templates (ex : Dict) (instr : String)
    (h : dictLookup ex "instruction" = some instr) :
    ∃ ex', generate_prompt ex = .ok ex' ∧
      dictLookup ex' "prompt" =
        some (if dictGetD ex "input" "" = "" then renderNoInput instr
              else renderInput instr (dictGetD ex "input" "")) := by
  refine ⟨_, generate_prompt_ok ex instr h, ?_⟩
  rw [dictLookup_dictSet_self]
  simp [specPrompt]

/-- C3, instantiated at the spec's end-to-end example. -/
theorem C3_witness :
    dictLookup sampleNoInputExample "instruction" = some "Summarize." ∧
    ∃ ex', generate_prompt sampleNoInputExample = .ok ex' ∧
      dictLookup ex' "prompt" =
        some (if dictGetD sampleNoInputExample "input" "" = "" then
                renderNoInput "Summarize."
              else
                renderInput "Summarize."
                  (dictGetD sampleNoInputExample "input" "")) :=
  ⟨by decide, C3_prompt_two_templates sampleNoInputExample "Summarize." (by decide)⟩

/-- C4 counterexample: a tokenizer whose encoding is already truncated to
`model_max_length` still gets one end-of-sequence id appended, producing an
`input_ids` of length `model_max_length + 1` — so the claimed bound does
not hold for the prompt `"x"` under `truncatingTokenizer`. -/
theorem C4_counterexample :
    (truncatingTokenizer.encode "x").length ≤
      truncatingTokenizer.model_max_length ∧
    batch_tokenize truncatingTokenizer ["x"] = [[5, 7, 9]] ∧
    truncatingTokenizer.model_max_length < ([5, 7, 9] : List Nat).length := by
  decide

/-- C4 (amended): if the tokenizer's own output never exceeds
`model_max_length` (the truncation policy belongs to the tokenizer
configuration), every `input_ids` produced by `batch_tokenize` has length
at most `model_max_length + 1` — the unconditional end-of-sequence append
can exceed the configured maximum by exactly one. -/
theorem C4_length_le_max_succ (tokenizer : Tokenizer) (prompts : List String)
    (htr : ∀ s, (tokenizer.encode s).length ≤ tokenizer.model_max_length) :
    ∀ ids ∈ batch_tokenize tokenizer prompts,
      ids.length ≤ tokenizer.model_max_length + 1 := by
  intro ids hids
  unfold batch_tokenize at hids
  rcases List.mem_map.mp hids with ⟨l, hl, rfl⟩
  rcases List.mem_map.mp hl with ⟨p, _, rfl⟩
  have := htr p
  simp only [List.length_append, List.length_cons, List.length_nil]
  omega

/-- C4 (amended), instantiated at the truncating tokenizer. -/
theorem C4_witness :
    (∀ s, (truncatingTokenizer.encode s).length ≤
      truncatingTokenizer.model_max_length) ∧
    ∀ ids ∈ batch_tokenize truncatingTokenizer ["x"],
      ids.length ≤ truncatingTokenizer.model_max_length + 1 :=
  ⟨fun _ => Nat.le.refl,
   C4_length_le_max_succ truncatingTokenizer ["x"] (fun _ => Nat.le.refl)⟩

/-- C5: a successful split partitions the dataset — the validation and
train subsets together are a permutation of the input (so they are
disjoint as a multiset partition and their union is the input), their
lengths add up to the input length, and the validation subset has exactly
`val_size` examples. -/
theorem C5_split_partition {α : Type} (D : List α) (val_size : Int)
    (seed : Nat) (r : SplitResult α)
    (h : train_test_split D val_size seed = .ok r) :
    (r.validation ++ r.train).Perm D ∧
    r.train.length + r.validation.length = D.length ∧
    (r.validation.length : Int) = val_size := by
  unfold train_test_split at h
  split at h
  · exact absurd h (by simp)
  · rename_i hcond
    rw [not_or, Int.not_lt, Int.not_le] at hcond
    injection h with h
    subst h
    have hlen : (shuffle seed D).length = D.length := shuffle_length seed D
    refine ⟨?_, ?_, ?_⟩
    · simpa [List.take_append_drop] using shuffle_perm seed D
    · simp only [List.length_drop, List.length_take, hlen]
      omega
    · simp only [List.length_take, hlen]
      omega

/-- C5, instantiated at a concrete dataset, size and seed. -/
theorem C5_witness :
    train_test_split [10, 20, 30] 1 42 = .ok sampleSplit ∧
    ((sampleSplit.validation ++ sampleSplit.train).Perm [10, 20, 30] ∧
     sampleSplit.train.length + sampleSplit.validation.length =
       ([10, 20, 30] : List Nat).length ∧
     (sampleSplit.validation.length : Int) = 1) :=
  ⟨by decide, C5_split_partition [10, 20, 30] 1 42 sampleSplit (by decide)⟩

/-- C6 counterexample: on the empty dataset, `split(D, 0, seed)` does not
succeed — `val_size = 0` already satisfies `val_size >= len(D)`, so the
claim's own failure rule forces a `ConfigError` instead of an empty
validation set. -/
theorem C6_counterexample :
    train_test_split ([] : List Nat) 0 42 = .error "ConfigError" := by
  decide

/-- C6 (amended): the split fails with `ConfigError` iff
`val_size >= len(D)` or `val_size < 0`; in particular `split(D, len(D),
seed)` always fails, and `split(D, 0, seed)` succeeds with an empty
validation set whenever `D` is non-empty. -/
theorem C6_split_error_iff {α : Type} (D : List α) (seed : Nat) :
    (∀ val_size : Int,
      train_test_split D val_size seed = .error "ConfigError" ↔
        val_size < 0 ∨ (D.length : Int) ≤ val_size) ∧
    train_test_split D (D.length : Int) seed = .error "ConfigError" ∧
    (0 < D.length →
      ∃ r, train_test_split D 0 seed = .ok r ∧ r.validation = []) := by
  have herr : ∀ val_size : Int,
      train_test_split D val_size seed = .error "ConfigError" ↔
        val_size < 0 ∨ (D.length : Int) ≤ val_size := by
    intro v
    unfold train_test_split
    split
    · rename_i hc
      simpa using hc
    · rename_i hc
      simpa using hc
  refine ⟨herr, (herr _).mpr (Or.inr le_rfl), fun hD => ?_⟩
  have hc : ¬((0 : Int) < 0 ∨ (D.length : Int) ≤ 0) := by
    rw [not_or, Int.not_lt, Int.not_le]
    exact ⟨le_rfl, by exact_mod_cast hD⟩
  refine ⟨{ train := (shuffle seed D).drop (0 : Int).toNat
            validation := (shuffle seed D).take (0 : Int).toNat }, ?_, ?_⟩
  · unfold train_test_split
    rw [if_neg hc]
  · simp

/-- C6 (amended), instantiated at a concrete two-element dataset. -/
theorem C6_witness :
    (train_test_split ([10, 20] : List Nat) 2 7 = .error "ConfigError" ↔
      (2 : Int) < 0 ∨ ((([10, 20] : List Nat).length : Int) ≤ 2)) ∧
    train_test_split ([10, 20] : List Nat)
      (([10, 20] : List Nat).length : Int) 7 = .error "ConfigError" ∧
    0 < ([10, 20] : List Nat).length ∧
    (∃ r, train_test_split ([10, 20] : List Nat) 0 7 = .ok r ∧
      r.validation = []) :=
  ⟨(C6_split_error_iff [10, 20] 7).1 2,
   (C6_split_error_iff [10, 20] 7).2.1,
   by decide,
   (C6_split_error_iff [10, 20] 7).2.2 (by decide)⟩

/-- C7: `generate_prompt` raises its key error exactly when the record has
no `instruction` field, and the error propagates through the dataset build
immediately — a single bad record aborts the whole `buildDataset`, with no
skip-and-continue. -/
theorem C7_format_error :
    (∀ ex : Dict, generate_prompt ex = .error "instruction" ↔
       dictLookup ex "instruction" = none) ∧
    (∀ (tokenizer : Tokenizer) (b : Nat) (ds : List Dict) (ex : Dict),
       ex ∈ ds → dictLookup ex "instruction" = none →
       buildDataset tokenizer b ds = .error "instruction") := by
  constructor
  · intro ex
    constructor
    · intro herr
      cases hl : dictLookup ex "instruction" with
      | none => rfl
      | some instr =>
        rw [generate_prompt_ok ex instr hl] at herr
        exact absurd herr (by simp)
    · exact generate_prompt_err ex
  · intro tokenizer b ds ex hmem hnone
    have hdicho : ∀ x : Dict,
        promptStage x = .ok (promptedOf x) ∨
        promptStage x = .error "instruction" := by
      intro x
      cases hl : dictLookup x "instruction" with
      | none => exact Or.inr (promptStage_err x hl)
      | some instr => exact Or.inl (promptStage_ok x instr hl)
    unfold buildDataset
    rw [mapExcept_error promptStage promptedOf "instruction" ds
      (fun x _ => hdicho x) ex hmem (promptStage_err ex hnone)]
    rfl

/-- C7, instantiated: a record without `instruction` fails, and the whole
one-record build fails with it. -/
theorem C7_witness :
    (generate_prompt noInstructionExample = .error "instruction" ↔
      dictLookup noInstructionExample "instruction" = none) ∧
    noInstructionExample ∈ [noInstructionExample] ∧
    dictLookup noInstructionExample "instruction" = none ∧
    buildDataset sampleTokenizer 1 [noInstructionExample] =
      .error "instruction" :=
  ⟨C7_format_error.1 noInstructionExample,
   by decide,
   by decide,
   C7_format_error.2 sampleTokenizer 1 [noInstructionExample]
     noInstructionExample (by decide) (by decide)⟩

/-- C8: on a dataset whose records all carry `instruction`, the build
pipeline succeeds; its result does not depend on the tokenization batch
size (batched tokenization does not reorder), and record for record, in
input order, the output carries the tokenized two-template prompt with the
end-of-sequence id appended and none of the
`prompt`/`instruction`/`input`/`output` columns. -/
theorem C8_pipeline (tokenizer : Tokenizer) (b : Nat) (ds : List Dict)
    (hb : 0 < b) (h : ∀ ex ∈ ds, dictLookup ex "instruction" ≠ none) :
    ∃ outs, buildDataset tokenizer b ds = .ok outs ∧
      buildDataset tokenizer b ds = buildDataset tokenizer 1 ds ∧
      List.Forall₂ (fun ex out =>
        (∀ instr, dictLookup ex "instruction" = some instr →
          out.input_ids =
            tokenizer.encode (specPrompt ex instr) ++
              [tokenizer.eos_token_id]) ∧
        dictLookup out.rest "prompt" = none ∧
        dictLookup out.rest "instruction" = none ∧
        dictLookup out.rest "input" = none ∧
        dictLookup out.rest "output" = none) ds outs := by
  refine ⟨ds.map (fun ex => tokRecordOf tokenizer (promptedOf ex)),
    buildDataset_ok tokenizer b ds hb h, ?_, ?_⟩
  · rw [buildDataset_ok tokenizer b ds hb h,
      buildDataset_ok tokenizer 1 ds Nat.one_pos h]
  · rw [List.forall₂_map_right_iff, List.forall₂_same]
    intro ex hex
    cases hl : dictLookup ex "instruction" with
    | none => exact absurd hl (h ex hex)
    | some instr =>
      refine ⟨?_, ?_, ?_, ?_, ?_⟩
      · intro instr' hinstr'
        have heq : instr' = instr := (Option.some.inj hinstr').symm
        show tokenizer.encode (dictGetD (promptedOf ex) "prompt" "") ++
            [tokenizer.eos_token_id] =
          tokenizer.encode (specPrompt ex instr') ++ [tokenizer.eos_token_id]
        rw [heq, dictGetD, promptedOf_prompt ex instr hl]
        rfl
      · exact dictLookup_removeColumns_mem _ _ _ (by simp)
      · show dictLookup (removeColumns ["prompt"] (promptedOf ex))
            "instruction" = none
        rw [dictLookup_removeColumns_not_mem _ _ _ (by simp)]
        exact promptedOf_dropped ex "instruction" (by simp)
      · show dictLookup (removeColumns ["prompt"] (promptedOf ex))
            "input" = none
        rw [dictLookup_removeColumns_not_mem _ _ _ (by simp)]
        exact promptedOf_dropped ex "input" (by simp)
      · show dictLookup (removeColumns ["prompt"] (promptedOf ex))
            "output" = none
        rw [dictLookup_removeColumns_not_mem _ _ _ (by simp)]
        exact promptedOf_dropped ex "output" (by simp)

/-- C8, instantiated on a two-record dataset with batch size 2. -/
theorem C8_witness :
    0 < 2 ∧
    (∀ ex ∈ [sampleNoInputExample, sampleInputExample],
      dictLookup ex "instruction" ≠ none) ∧
    ∃ outs,
      buildDataset sampleTokenizer 2 [sampleNoInputExample, sampleInputExample]
        = .ok outs ∧
      buildDataset sampleTokenizer 2 [sampleNoInputExample, sampleInputExample]
        = buildDataset sampleTokenizer 1
            [sampleNoInputExample, sampleInputExample] ∧
      List.Forall₂ (fun ex out =>
        (∀ instr, dictLookup ex "instruction" = some instr →
          out.input_ids =
            sampleTokenizer.encode (specPrompt ex instr) ++
              [sampleTokenizer.eos_token_id]) ∧
        dictLookup out.rest "prompt" = none ∧
        dictLookup out.rest "instruction" = none ∧
        dictLookup out.rest "input" = none ∧
        dictLookup out.rest "output" = none)
        [sampleNoInputExample, sampleInputExample] outs :=
  ⟨by decide, by decide,
   C8_pipeline sampleTokenizer 2 [sampleNoInputExample, sampleInputExample]
     (by decide) (by decide)⟩

/-- C9: the pad-token fixup substitutes the existing unknown token as pad
token exactly when no pad token is present, never touches the vocabulary
(in particular its size), and leaves a tokenizer that already has a pad
token entirely unchanged. -/
theorem C9_pad_token (t : PretrainedTokenizer) :
    (set_pad_token t).vocab = t.vocab ∧
    (t.pad_token = none →
      set_pad_token t = { t with pad_token := some t.unk_token }) ∧
    (∀ p, t.pad_token = some p → set_pad_token t = t) := by
  refine ⟨?_, fun h => by simp [set_pad_token, h], fun p hp => by
    simp [set_pad_token, hp]⟩
  unfold set_pad_token
  split <;> rfl

/-- C9, instantiated at a pad-less tokenizer. -/
theorem C9_witness :
    padlessTokenizer.pad_token = none ∧
    set_pad_token padlessTokenizer =
      { padlessTokenizer with pad_token := some padlessTokenizer.unk_token } ∧
    (set_pad_token padlessTokenizer).vocab = padlessTokenizer.vocab :=
  ⟨rfl, (C9_pad_token padlessTokenizer).2.1 rfl, (C9_pad_token padlessTokenizer).1⟩

theorem filter_ne_dictSet (ex : Dict) (k v : String) :
    (dictSet ex k v).filter (fun kv => !(kv.1 == k)) =
      ex.filter (fun kv => !(kv.1 == k)) := by
  induction ex with
  | nil => simp [dictSet]
  | cons kv t ih =>
    by_cases hk : kv.1 = k
    · simp [dictSet, hk, List.filter_cons]
    · simp [dictSet, hk, List.filter_cons, ih]

/-- C10 counterexample: on a record that already carries a `prompt` field,
`generate_prompt` overwrites it — the pre-existing pair is no longer in
the returned record, so "every pre-existing field is left unchanged" fails
as stated. -/
theorem C10_counterexample :
    generate_prompt prepromptedExample =
      .ok [("instruction", "a"), ("prompt", renderNoInput "a")] ∧
    ("prompt", "old") ∈ prepromptedExample ∧
    ("prompt", "old") ∉
      ([("instruction", "a"), ("prompt", renderNoInput "a")] : Dict) := by
  refine ⟨?_, by decide, by decide⟩
  rw [generate_prompt_ok prepromptedExample "a" (by decide)]
  rfl

/-- C10 (amended): `generate_prompt` returns the record it was given with
the `prompt` field set to the generated prompt; every pre-existing field
with a key other than `prompt` is preserved, in order and unchanged — any
dropping of the original fields happens only in the surrounding pipeline
stages, not in the formatter. -/
theorem C10_frame (ex ex' : Dict) (h : generate_prompt ex = .ok ex') :
    ex'.filter (fun kv => !(kv.1 == "prompt")) =
      ex.filter (fun kv => !(kv.1 == "prompt")) ∧
    ∃ p, dictLookup ex' "prompt" = some p := by
  cases hl : dictLookup ex "instruction" with
  | none =>
    rw [generate_prompt_err ex hl] at h
    exact absurd h (by simp)
  | some instr =>
    rw [generate_prompt_ok ex instr hl] at h
    injection h with h
    subst h
    exact ⟨filter_ne_dictSet ex "prompt" (specPrompt ex instr),
      specPrompt ex instr, dictLookup_dictSet_self ex "prompt" _⟩

/-- C10 (amended), instantiated at the spec's end-to-end example. -/
theorem C10_witness :
    generate_prompt sampleNoInputExample =
      .ok (dictSet sampleNoInputExample "prompt"
        (specPrompt sampleNoInputExample "Summarize.")) ∧
    ((dictSet sampleNoInputExample "prompt"
        (specPrompt sampleNoInputExample "Summarize.")).filter
          (fun kv => !(kv.1 == "prompt")) =
      sampleNoInputExample.filter (fun kv => !(kv.1 == "prompt")) ∧
     ∃ p, dictLookup (dictSet sampleNoInputExample "prompt"
        (specPrompt sampleNoInputExample "Summarize.")) "prompt" = some p) :=
  ⟨generate_prompt_ok sampleNoInputExample "Summarize." (by decide),
   C10_frame sampleNoInputExample _
     (generate_prompt_ok sampleNoInputExample "Summarize." (by decide))⟩
